import Mathlib

/-!
Verification of the claudia-web file-explorer core against its specification.

The definitions below are a shallow embedding of the TypeScript source:

* src/components/FileExplorer.tsx — the file-tree model and controller
  (loadFileTree, updateTreeWithChildren, toggleDirectory, filterFiles and
  the render-mode selection);
* src/lib/containerAPI.ts — the remote workspace client with its
  catch-and-return-mock-data error handling;
* src/lib/webProjectManager.ts — updateProjectFile over a project's file list;
* the Express server (listDirectory in the server entry script).

Promises are embedded as explicit outcome values: the outcome of an HTTP
request is a parameter (Option / Except), and an async function becomes a
pure function of that outcome.  Timestamps are kept as plain naturals
(Date.now() becomes a parameter named now); the ISO string formatting of
the modified field is abstracted away since no claim depends on it.
-/

set_option autoImplicit false

namespace ClaudiaWeb

/-! ## String helpers: JS String.prototype.includes over lowered strings -/

/-- leadsWith pat s: pat is an initial run of s (character lists). -/
def leadsWith : List Char → List Char → Bool
  | [], _ => true
  | _ :: _, [] => false
  | a :: as, b :: bs => (a = b) && leadsWith as bs

/-- containsSeq pat s: pat occurs contiguously somewhere in s. -/
def containsSeq (pat : List Char) : List Char → Bool
  | [] => leadsWith pat []
  | c :: rest => leadsWith pat (c :: rest) || containsSeq pat rest

/-- strIncludes s pat: JS s.includes(pat). -/
def strIncludes (s pat : String) : Bool :=
  containsSeq pat.toList s.toList

/-- JS s.toLowerCase(), realised over the character list. -/
def strToLower (s : String) : String :=
  String.mk (s.toList.map Char.toLower)

/-- JS s.trim(): strip leading and trailing whitespace. -/
def strTrim (s : String) : String :=
  String.mk (((s.toList.dropWhile Char.isWhitespace).reverse.dropWhile
    Char.isWhitespace).reverse)

/-! ## Data model

ContainerFile is the wire format of the remote workspace client
(containerAPI.ts lines 18-25); FileEntry is the tree-node type of the
explorer (FileExplorer.tsx lines 19-27).  FileEntry.children is an
optional list, exactly as the optional children?: FileEntry[] field:
none embeds undefined, some [] embeds an empty array. -/

structure ContainerFile where
  name : String
  path : String
  is_directory : Bool
  size : Nat
  modified : Nat
  extension : Option String := none
deriving DecidableEq, Repr

inductive FileEntry where
  | mk (name : String) (path : String) (is_directory : Bool) (size : Nat)
       (modified : Nat) (children : Option (List FileEntry)) (expanded : Bool)
deriving Repr

def FileEntry.name : FileEntry → String
  | .mk n _ _ _ _ _ _ => n

def FileEntry.path : FileEntry → String
  | .mk _ p _ _ _ _ _ => p

def FileEntry.is_directory : FileEntry → Bool
  | .mk _ _ d _ _ _ _ => d

def FileEntry.size : FileEntry → Nat
  | .mk _ _ _ s _ _ _ => s

def FileEntry.modified : FileEntry → Nat
  | .mk _ _ _ _ m _ _ => m

def FileEntry.children : FileEntry → Option (List FileEntry)
  | .mk _ _ _ _ _ c _ => c

def FileEntry.expanded : FileEntry → Bool
  | .mk _ _ _ _ _ _ e => e

/-! ## Remote workspace client (containerAPI.ts)

Every method wraps its fetch in try/catch and, in the catch branch, logs a
warning and resolves with mock data (or with nothing, for write/delete);
no method ever rejects.  The HTTP outcome is a parameter: some v / .ok v
is a 2xx response with payload v, none / .error is any transport failure,
non-2xx status or body-decoding failure inside the try block. -/

/-- getMockFiles (containerAPI.ts lines 177-203); now embeds Date.now(). -/
def getMockFiles (now : Nat) : List ContainerFile :=
  [⟨"src", "src", true, 0, now - 3600000, none⟩,
   ⟨"package.json", "package.json", false, 1234, now - 7200000, some "json"⟩,
   ⟨"README.md", "README.md", false, 2567, now - 1800000, some "md"⟩]

/-- listProjectFiles (containerAPI.ts lines 79-91): on any failure it
resolves with the mock file list; the returned promise is always
fulfilled, hence the Except value is always ok. -/
def listProjectFilesModel (now : Nat) (http : Option (List ContainerFile)) :
    Except String (List ContainerFile) :=
  match http with
  | some files => .ok files
  | none => .ok (getMockFiles now)

/-- readFile (containerAPI.ts lines 93-106): catch resolves with the
synthetic placeholder text. -/
def mockFileContent (filePath : String) : String :=
  "// Mock content for " ++ filePath ++ "\nconsole.log(\"Hello from " ++ filePath ++ "\");"

def readFileModel (http : Except String String) (filePath : String) :
    Except String String :=
  match http with
  | .ok body => .ok body
  | .error _ => .ok (mockFileContent filePath)

/-- Server-side file store touched by a successful PUT
…/files/content (server script lines 146-163): write-or-create by path. -/
def serverWriteFile : List (String × String) → String → String → List (String × String)
  | [], p, c => [(p, c)]
  | (q, d) :: rest, p, c =>
    if q = p then (p, c) :: rest else (q, d) :: serverWriteFile rest p c

/-- writeFile (containerAPI.ts lines 108-119) paired with the server store
it targets: when the request succeeds the server applies the write, when
it fails the catch branch only logs and the promise resolves anyway, the
store untouched.  First component is the promise outcome seen by the
caller, second the server store afterwards. -/
def writeFileModel (serverUp : Bool) (server : List (String × String))
    (p c : String) : Except String Unit × List (String × String) :=
  if serverUp then (.ok (), serverWriteFile server p c) else (.ok (), server)

/-- deleteFile (containerAPI.ts lines 121-132): resolves in both branches. -/
def deleteFileModel (http : Except String Unit) : Except String Unit :=
  match http with
  | .ok _ => .ok ()
  | .error _ => .ok ()

/-- executeCommand (containerAPI.ts lines 134-147). -/
def executeCommandModel (http : Except String String) (command : String) :
    Except String String :=
  match http with
  | .ok out => .ok out
  | .error _ => .ok ("Mock execution of: " ++ command ++ "\nCommand completed successfully.")

/-- Promise outcome discriminator: true exactly when the promise was
fulfilled (the Except is ok). -/
def isFulfilled {α : Type} : Except String α → Bool
  | .ok _ => true
  | .error _ => false

/-- ContainerProject (containerAPI.ts lines 9-16); the optional files
field is never populated by the client and is omitted. -/
structure ContainerProject where
  id : String
  name : String
  path : String
  created_at : Nat
  most_recent_session : Option Nat := none
deriving DecidableEq, Repr

/-- Replace every whitespace run by a single dash — the replace(/\s+/g)
step of the mock project id. -/
def collapseRuns : List Char → List Char
  | [] => []
  | c :: rest =>
    if c.isWhitespace then
      '-' :: collapseRuns (rest.dropWhile Char.isWhitespace)
    else
      c :: collapseRuns rest
termination_by l => l.length
decreasing_by
  · simp only [List.length_cons]
    have := List.Sublist.length_le (List.dropWhile_sublist (p := Char.isWhitespace) (l := rest))
    omega
  · simp

/-- name.toLowerCase().replace(/\s+/g, the dash) — the mock project id
and path stem (containerAPI.ts lines 168-175). -/
def slugify (name : String) : String :=
  String.mk (collapseRuns (strToLower name).toList)

/-- getMockProjects (containerAPI.ts lines 150-166). -/
def getMockProjects (now : Nat) : List ContainerProject :=
  [⟨"sample-project", "Sample Project", "/workspace/sample-project",
    now - 86400000, some (now - 3600000)⟩,
   ⟨"my-app", "My App", "/workspace/my-app", now - 172800000, none⟩]

/-- getMockProject (containerAPI.ts lines 168-175). -/
def getMockProject (now : Nat) (name : String) : ContainerProject :=
  ⟨slugify name, name, "/workspace/" ++ slugify name, now, none⟩

/-- listWorkspaceProjects (containerAPI.ts lines 40-51). -/
def listWorkspaceProjectsModel (now : Nat) (http : Option (List ContainerProject)) :
    Except String (List ContainerProject) :=
  match http with
  | some projects => .ok projects
  | none => .ok (getMockProjects now)

/-- createProject (containerAPI.ts lines 53-66). -/
def createProjectModel (now : Nat) (http : Option ContainerProject) (name : String) :
    Except String ContainerProject :=
  match http with
  | some project => .ok project
  | none => .ok (getMockProject now name)

/-- getProject (containerAPI.ts lines 68-77): the catch resolves with a
mock project named after the requested id. -/
def getProjectModel (now : Nat) (http : Option ContainerProject) (projectId : String) :
    Except String ContainerProject :=
  match http with
  | some project => .ok project
  | none => .ok (getMockProject now ("project-" ++ projectId))

/-! ## File-tree model (FileExplorer.tsx) -/

/-- Conversion of a listing entry into a tree node (loadFileTree,
lines 77-85): a directory starts with an empty children array, a file
with children undefined; expanded is initialised false. -/
def convertContainerFile (f : ContainerFile) : FileEntry :=
  .mk f.name f.path f.is_directory f.size f.modified
    (if f.is_directory then some [] else none) false

/-- The per-child reset applied while grafting (updateTreeWithChildren,
lines 125-129): grafted children are themselves lazy. -/
def normalizeChild (c : FileEntry) : FileEntry :=
  match c with
  | .mk n p d s m _ _ => .mk n p d s m (if d then some [] else none) false

mutual

/-- One tree node under updateTreeWithChildren (lines 121-139): a
directory at the target path gets the (re-normalised) children and
expanded := true; otherwise, a node with a present children field recurses
into it, and a node without one is returned untouched. -/
def updateEntryWithChildren : FileEntry → String → List FileEntry → FileEntry
  | .mk n p d s m c e, targetPath, children =>
    if p = targetPath ∧ d then
      .mk n p d s m (some (children.map normalizeChild)) true
    else
      match c with
      | some cs => .mk n p d s m (some (updateTreeWithChildren cs targetPath children)) e
      | none => .mk n p d s m c e

/-- updateTreeWithChildren (FileExplorer.tsx lines 120-140), the
tree.map(...) written as structural recursion. -/
def updateTreeWithChildren : List FileEntry → String → List FileEntry → List FileEntry
  | [], _, _ => []
  | item :: rest, targetPath, children =>
    updateEntryWithChildren item targetPath children ::
      updateTreeWithChildren rest targetPath children

end

mutual

/-- All path fields occurring anywhere in a node (itself and its
materialised descendants). -/
def entryPaths : FileEntry → List String
  | .mk _ p _ _ _ c _ => p :: childPaths c

def childPaths : Option (List FileEntry) → List String
  | none => []
  | some l => listPaths l

def listPaths : List FileEntry → List String
  | [] => []
  | a :: as => entryPaths a ++ listPaths as

end

mutual

/-- The laziness invariant of the spec, as read off the code: the children
field is present exactly on directories (and recursively so below). -/
def entryLazyInv : FileEntry → Bool
  | .mk _ _ d _ _ c _ =>
    match c with
    | some cs => d && listLazyInv cs
    | none => !d

def listLazyInv : List FileEntry → Bool
  | [] => true
  | a :: as => entryLazyInv a && listLazyInv as

end

/-! ## loadFileTree (FileExplorer.tsx lines 67-118)

The try block awaits containerAPI.listProjectFiles, which never rejects
(its own catch resolves with mock data), and then converts entries with
total operations, so the catch at line 94 — the fallback to the legacy
api.listDirectoryContents — is unreachable from an HTTP failure; it is
kept in the model for structural fidelity, driven by the (always-ok)
client outcome.  Both catches (lines 94-96 and 112-114) only log to the
console: no error ever reaches the caller, which the errorSurfaced flag
records. -/

structure LoadOutcome where
  tree : List FileEntry
  legacyCalled : Bool
  errorSurfaced : Bool
deriving Repr

/-- Legacy root entries get the same lazy-children reset
(lines 103-107). -/
def legacyNormalizeRoot (e : FileEntry) : FileEntry :=
  match e with
  | .mk n p d s m _ _ => .mk n p d s m (if d then some [] else none) false

def loadFileTreeModel (now : Nat) (http : Option (List ContainerFile))
    (legacy : Except String (List FileEntry)) (tree : List FileEntry)
    (path : Option String) : LoadOutcome :=
  match listProjectFilesModel now http with
  | .ok containerFiles =>
    let entries := containerFiles.map convertContainerFile
    { tree := match path with
              | none => entries
              | some p => updateTreeWithChildren tree p entries,
      legacyCalled := false, errorSurfaced := false }
  | .error _ =>
    match legacy with
    | .ok entries =>
      { tree := match path with
                | none => entries.map legacyNormalizeRoot
                | some p => updateTreeWithChildren tree p entries,
        legacyCalled := true, errorSurfaced := false }
    | .error _ =>
      { tree := tree, legacyCalled := true, errorSurfaced := false }

/-! ## toggleDirectory (FileExplorer.tsx lines 142-159)

The function reads the component state captured at call time: the
expandedPaths set (a JS Set, embedded as a duplicate-free string list)
and the rendered entry object.  setExpandedPaths(newExpandedPaths) runs
after the await in every branch, so the path added before the fetch stays
in the set whatever the fetch outcome. -/

def setInsert (s : List String) (x : String) : List String :=
  if s.contains x then s else x :: s

def setRemove (s : List String) (x : String) : List String :=
  s.filter (fun y => y ≠ x)

structure ToggleOutcome where
  expandedPaths : List String
  tree : List FileEntry
  fetched : Bool
deriving Repr

def toggleDirectory (now : Nat) (http : Option (List ContainerFile))
    (legacy : Except String (List FileEntry)) (expandedPaths : List String)
    (tree : List FileEntry) (entry : FileEntry) : ToggleOutcome :=
  if entry.is_directory = false then
    ⟨expandedPaths, tree, false⟩
  else if expandedPaths.contains entry.path then
    ⟨setRemove expandedPaths entry.path, tree, false⟩
  else
    match entry.children with
    | none =>
      ⟨setInsert expandedPaths entry.path,
       (loadFileTreeModel now http legacy tree (some entry.path)).tree, true⟩
    | some [] =>
      ⟨setInsert expandedPaths entry.path,
       (loadFileTreeModel now http legacy tree (some entry.path)).tree, true⟩
    | some (_ :: _) =>
      ⟨setInsert expandedPaths entry.path, tree, false⟩

/-- Two toggle calls racing on the same path: toggleDirectory is
synchronous up to its await (the listing request is issued inside it),
and React commits setExpandedPaths / setFileTree only after the await, so
the second call reads the same expandedPaths value and the same rendered
entry as the first, and both requests are issued before either response
lands.  Each call issues one listing request iff its fetched flag is
set; there is no in-flight-request table anywhere in the component. -/
def concurrentToggleFetches (now : Nat) (http : Option (List ContainerFile))
    (legacy : Except String (List FileEntry)) (expandedPaths : List String)
    (tree : List FileEntry) (entry : FileEntry) : Nat :=
  (toggleDirectory now http legacy expandedPaths tree entry).fetched.toNat +
  (toggleDirectory now http legacy expandedPaths tree entry).fetched.toNat

/-! ## Search (filterFiles, FileExplorer.tsx lines 169-188, and the
render-mode selection, lines 58-65 and 345-358) -/

/-- The object pushed for a match: the item spread with a display path
joined from the immediate parent (line 175-178). -/
def rewriteItem (parent : Option FileEntry) (item : FileEntry) : FileEntry :=
  match parent with
  | some par =>
    match item with
    | .mk n _ d s m c e => .mk n (par.path ++ "/" ++ n) d s m c e
  | none => item

mutual

/-- searchInTree on one item: push the item (with display path) if its
lowered name includes the query, then recurse into a present children
field with the item as parent — matches come out in pre-order. -/
def searchEntry : String → Option FileEntry → FileEntry → List FileEntry
  | q, parent, .mk n p d s m c e =>
    (if strIncludes (strToLower n) q then [rewriteItem parent (.mk n p d s m c e)] else []) ++
    (match c with
     | some cs => searchList q (some (.mk n p d s m c e)) cs
     | none => [])

def searchList : String → Option FileEntry → List FileEntry → List FileEntry
  | _, _, [] => []
  | q, parent, a :: as => searchEntry q parent a ++ searchList q parent as

end

/-- filterFiles (lines 169-188); the component calls it with the query
already lower-cased (line 60). -/
def filterFiles (files : List FileEntry) (query : String) : List FileEntry :=
  searchList query none files

mutual

/-- Depth-first pre-order flattening of the materialised tree: parent
before children, siblings in listing order. -/
def preorderEntry : FileEntry → List FileEntry
  | .mk n p d s m c e =>
    .mk n p d s m c e ::
      (match c with
       | some cs => preorderList cs
       | none => [])

def preorderList : List FileEntry → List FileEntry
  | [] => []
  | a :: as => preorderEntry a ++ preorderList as

end

mutual

/-- Path coherence: every materialised child's path is its parent's path
plus "/" plus its own name (the shape produced by the workspace server,
which joins the listed directory's path with each entry name).  On such
trees the display-path rewrite of filterFiles is the identity. -/
def cohEntry : Option FileEntry → FileEntry → Bool
  | parent, .mk n p d s m c e =>
    (match parent with
     | some par => p = par.path ++ "/" ++ n
     | none => true) &&
    (match c with
     | some cs => cohList (some (.mk n p d s m c e)) cs
     | none => true)

def cohList : Option FileEntry → List FileEntry → Bool
  | _, [] => true
  | parent, a :: as => cohEntry parent a && cohList parent as

end

/-- The explorer body (lines 345-358) together with the filtering effect
(lines 58-65): a query that is non-empty after trimming shows the search
results computed from the lower-cased query over the current tree;
otherwise the full tree view is shown. -/
inductive ExplorerView where
  | treeView (entries : List FileEntry)
  | searchResults (results : List FileEntry)
deriving Repr

def explorerView (fileTree : List FileEntry) (searchQuery : String) : ExplorerView :=
  if strTrim searchQuery = "" then .treeView fileTree
  else .searchResults (filterFiles fileTree (strToLower searchQuery))

/-! ## Persistent project store (webProjectManager.ts) -/

inductive FileKind where
  | text
  | binary
deriving DecidableEq, Repr

/-- WebProjectFile (webProjectManager.ts lines 14-19); content restricted
to the text case the update path exercises (updateProjectFile always
stores a string and kind text for new records). -/
structure WebProjectFile where
  path : String
  content : String
  type : FileKind
  size : Nat
deriving DecidableEq, Repr

/-- The files-array mutation inside updateProjectFile (lines 145-158),
findIndex / in-place overwrite / push written as structural recursion:
the first record whose path matches is overwritten (content replaced,
size recomputed as the blob byte size, i.e. the UTF-8 size of the new
content), and if none matches a fresh text record is appended at the
end. -/
def updateProjectFiles : List WebProjectFile → String → String → List WebProjectFile
  | [], filePath, content =>
    [⟨filePath, content, .text, content.utf8ByteSize⟩]
  | f :: fs, filePath, content =>
    if f.path = filePath then
      { f with content := content, size := content.utf8ByteSize } :: fs
    else
      f :: updateProjectFiles fs filePath content

/-! ## Server-side directory listing (server entry script, lines 39-53) -/

/-- A filesystem entry as fs.readdir(withFileTypes) reports it, together
with the entry's true byte size on disk, which the server never reads. -/
structure FsDirent where
  name : String
  is_directory : Bool
  sizeOnDisk : Nat
deriving DecidableEq, Repr

structure ServerEntry where
  name : String
  path : String
  is_directory : Bool
  size : Nat
  modified : Nat
deriving DecidableEq, Repr

/-- path.join for a directory path and a plain entry name. -/
def pathJoin (a b : String) : String :=
  a ++ "/" ++ b

/-- listDirectory: every listed entry gets size 0 (the script's comment
says the field would be filled by stat if needed) and modified
Date.now(). -/
def listDirectory (dirPath : String) (now : Nat) (entries : List FsDirent) :
    List ServerEntry :=
  entries.map fun e => ⟨e.name, pathJoin dirPath e.name, e.is_directory, 0, now⟩

/-! ## Concrete fixtures used by witnesses and counterexamples -/

/-- A freshly listed, never-expanded directory node for path "src", as
convertContainerFile produces it. -/
def srcEntry : FileEntry :=
  .mk "src" "src" true 0 999 (some []) false

def childA : FileEntry :=
  .mk "a.ts" "src/a.ts" false 10 999 none false

def childB : FileEntry :=
  .mk "b.ts" "src/b.ts" false 20 999 none false

/-- The "src" node after a fetch returned the two children above. -/
def srcExpandedEntry : FileEntry :=
  .mk "src" "src" true 0 999 (some [childA, childB]) true

/-- A one-file project file list. -/
def filesFixture : List WebProjectFile :=
  [⟨"a.txt", "old", .text, 3⟩]

/-! # Theorems -/

/-! ## Helper lemmas -/

theorem setRemove_contains_eq_false (s : List String) (x : String) :
    (setRemove s x).contains x = false := by
  induction s with
  | nil => rfl
  | cons a as ih =>
    by_cases h : a = x
    · simp [setRemove, h]
    · simpa [setRemove, h, List.contains_cons, ih] using fun hx => h hx.symm

theorem setInsert_contains_self (s : List String) (x : String) :
    (setInsert s x).contains x = true := by
  unfold setInsert
  by_cases h : s.contains x = true
  · rw [if_pos h]; exact h
  · rw [if_neg h]; simp [List.contains_cons]

mutual

theorem updateEntry_noop : ∀ (e : FileEntry) (t : String) (cs : List FileEntry),
    t ∉ entryPaths e → updateEntryWithChildren e t cs = e
  | .mk n p d s m (some l) ex, t, cs, h => by
    simp only [entryPaths, childPaths, List.mem_cons, not_or] at h
    obtain ⟨h1, h2⟩ := h
    simp only [updateEntryWithChildren]
    rw [if_neg (by rintro ⟨hp, _⟩; exact h1 hp.symm)]
    rw [updateTree_noop l t cs h2]
  | .mk n p d s m none ex, t, cs, h => by
    simp only [entryPaths, childPaths, List.mem_cons, not_or] at h
    simp only [updateEntryWithChildren]
    rw [if_neg (by rintro ⟨hp, _⟩; exact h.1 hp.symm)]

theorem updateTree_noop : ∀ (l : List FileEntry) (t : String) (cs : List FileEntry),
    t ∉ listPaths l → updateTreeWithChildren l t cs = l
  | [], _, _, _ => rfl
  | a :: as, t, cs, h => by
    simp only [listPaths, List.mem_append, not_or] at h
    simp only [updateTreeWithChildren]
    rw [updateEntry_noop a t cs h.1, updateTree_noop as t cs h.2]

end

theorem updateProjectFiles_length_of_mem (files : List WebProjectFile)
    (p c : String) (h : p ∈ files.map WebProjectFile.path) :
    (updateProjectFiles files p c).length = files.length := by
  induction files with
  | nil => simp at h
  | cons f fs ih =>
    by_cases hf : f.path = p
    · simp [updateProjectFiles, hf]
    · simp only [List.map_cons, List.mem_cons] at h
      rcases h with h | h
      · exact absurd h.symm hf
      · simp [updateProjectFiles, hf, ih h]

theorem updateProjectFiles_of_not_mem (files : List WebProjectFile)
    (p c : String) (h : p ∉ files.map WebProjectFile.path) :
    updateProjectFiles files p c = files ++ [⟨p, c, .text, c.utf8ByteSize⟩] := by
  induction files with
  | nil => rfl
  | cons f fs ih =>
    simp only [List.map_cons, List.mem_cons, not_or] at h
    rw [updateProjectFiles, if_neg (fun hf => h.1 hf.symm), ih h.2]
    rfl

theorem updateProjectFiles_find (files : List WebProjectFile) (p c : String) :
    ((updateProjectFiles files p c).find? (fun f => f.path = p)).map
      (fun f => (f.content, f.size)) = some (c, c.utf8ByteSize) := by
  induction files with
  | nil => simp [updateProjectFiles, List.find?]
  | cons f fs ih =>
    by_cases hf : f.path = p
    · simp [updateProjectFiles, hf, List.find?]
    · simp only [updateProjectFiles, if_neg hf]
      rw [List.find?_cons_of_neg _ (by simpa using hf)]
      exact ih

theorem updateProjectFiles_mem_path (files : List WebProjectFile) (p c : String) :
    p ∈ (updateProjectFiles files p c).map WebProjectFile.path := by
  induction files with
  | nil => simp [updateProjectFiles]
  | cons f fs ih =>
    by_cases hf : f.path = p
    · simp [updateProjectFiles, hf]
    · simp only [updateProjectFiles, if_neg hf, List.map_cons, List.mem_cons]
      exact Or.inr ih

theorem listLazyInv_map_normalizeChild (cs : List FileEntry) :
    listLazyInv (cs.map normalizeChild) = true := by
  induction cs with
  | nil => rfl
  | cons a as ih =>
    rcases a with ⟨n, p, d, s, m, c, e⟩
    cases d <;> simp [normalizeChild, listLazyInv, entryLazyInv, ih]

theorem listLazyInv_map_convert (files : List ContainerFile) :
    listLazyInv (files.map convertContainerFile) = true := by
  induction files with
  | nil => rfl
  | cons f fs ih =>
    rcases f with ⟨n, p, d, s, m, ext⟩
    cases d <;> simp [convertContainerFile, listLazyInv, entryLazyInv, ih]

theorem listLazyInv_map_legacyRoot (es : List FileEntry) :
    listLazyInv (es.map legacyNormalizeRoot) = true := by
  induction es with
  | nil => rfl
  | cons a as ih =>
    rcases a with ⟨n, p, d, s, m, c, e⟩
    cases d <;> simp [legacyNormalizeRoot, listLazyInv, entryLazyInv, ih]

/-- Unfolding lemma: toggling a collapsed directory whose children field
is the empty placeholder takes the fetch branch. -/
theorem toggleDirectory_fetchBranch (now : Nat) (http : Option (List ContainerFile))
    (legacy : Except String (List FileEntry)) (expandedPaths : List String)
    (tree : List FileEntry) (entry : FileEntry)
    (hdir : entry.is_directory = true)
    (hexp : expandedPaths.contains entry.path = false)
    (hch : entry.children = some []) :
    toggleDirectory now http legacy expandedPaths tree entry =
      ⟨setInsert expandedPaths entry.path,
       (loadFileTreeModel now http legacy tree (some entry.path)).tree, true⟩ := by
  unfold toggleDirectory
  rw [hdir, if_neg (by simp), hexp, if_neg (by simp), hch]

/-- Unfolding lemma: toggling an expanded directory collapses it and
leaves the tree untouched. -/
theorem toggleDirectory_collapseBranch (now : Nat) (http : Option (List ContainerFile))
    (legacy : Except String (List FileEntry)) (expandedPaths : List String)
    (tree : List FileEntry) (entry : FileEntry)
    (hdir : entry.is_directory = true)
    (hexp : expandedPaths.contains entry.path = true) :
    toggleDirectory now http legacy expandedPaths tree entry =
      ⟨setRemove expandedPaths entry.path, tree, false⟩ := by
  unfold toggleDirectory
  rw [hdir, if_neg (by simp), hexp, if_pos rfl]

/-- Unfolding lemma: toggling a collapsed directory whose children are
already cached (non-empty) expands it without a fetch. -/
theorem toggleDirectory_cachedBranch (now : Nat) (http : Option (List ContainerFile))
    (legacy : Except String (List FileEntry)) (expandedPaths : List String)
    (tree : List FileEntry) (entry : FileEntry) (c0 : FileEntry) (crest : List FileEntry)
    (hdir : entry.is_directory = true)
    (hexp : expandedPaths.contains entry.path = false)
    (hch : entry.children = some (c0 :: crest)) :
    toggleDirectory now http legacy expandedPaths tree entry =
      ⟨setInsert expandedPaths entry.path, tree, false⟩ := by
  unfold toggleDirectory
  rw [hdir, if_neg (by simp), hexp, if_neg (by simp), hch]

mutual

theorem entryLazyInv_update : ∀ (e : FileEntry) (t : String) (cs : List FileEntry),
    entryLazyInv e = true → entryLazyInv (updateEntryWithChildren e t cs) = true
  | .mk n p d s m (some l) ex, t, cs, h => by
    simp only [entryLazyInv, Bool.and_eq_true] at h
    simp only [updateEntryWithChildren]
    by_cases hc : p = t ∧ d = true
    · rw [if_pos hc]
      simp [entryLazyInv, h.1, listLazyInv_map_normalizeChild cs]
    · rw [if_neg hc]
      simp [entryLazyInv, h.1, listLazyInv_update l t cs h.2]
  | .mk n p d s m none ex, t, cs, h => by
    simp only [entryLazyInv] at h
    simp only [updateEntryWithChildren]
    by_cases hc : p = t ∧ d = true
    · exact absurd hc.2 (by simp_all)
    · rw [if_neg hc]
      simpa [entryLazyInv] using h

theorem listLazyInv_update : ∀ (l : List FileEntry) (t : String) (cs : List FileEntry),
    listLazyInv l = true → listLazyInv (updateTreeWithChildren l t cs) = true
  | [], _, _, _ => rfl
  | a :: as, t, cs, h => by
    simp only [listLazyInv, Bool.and_eq_true] at h
    simp only [updateTreeWithChildren, listLazyInv, Bool.and_eq_true]
    exact ⟨entryLazyInv_update a t cs h.1, listLazyInv_update as t cs h.2⟩

end

/-! ## C1 -/

/-- Counterexample to C1: on a fresh directory node "src" (children still
the empty placeholder) two toggle calls racing from the same render
snapshot both pass the fetch guard, so the listing client is called
twice, not exactly once. -/
theorem c1_counterexample :
    concurrentToggleFetches 1000 (some [⟨"a.ts", "src/a.ts", false, 10, 999, none⟩])
      (.error "offline") [] [srcEntry] srcEntry ≠ 1 := by
  have h : concurrentToggleFetches 1000
      (some [⟨"a.ts", "src/a.ts", false, 10, 999, none⟩])
      (.error "offline") [] [srcEntry] srcEntry = 2 := rfl
  rw [h]
  omega

/-- C1 amended: the component has no in-flight-request table, so two
concurrent toggles on a collapsed directory whose children are still
unloaded each issue a listing fetch — exactly two calls, not one. -/
theorem c1_concurrent_double_fetch (now : Nat) (http : Option (List ContainerFile))
    (legacy : Except String (List FileEntry)) (expandedPaths : List String)
    (tree : List FileEntry) (entry : FileEntry)
    (hdir : entry.is_directory = true)
    (hexp : expandedPaths.contains entry.path = false)
    (hch : entry.children = some []) :
    concurrentToggleFetches now http legacy expandedPaths tree entry = 2 := by
  unfold concurrentToggleFetches
  rw [toggleDirectory_fetchBranch now http legacy expandedPaths tree entry hdir hexp hch]
  rfl

theorem c1_concurrent_double_fetch_witness :
    concurrentToggleFetches 1000 (some [⟨"a.ts", "src/a.ts", false, 10, 999, none⟩])
      (.error "offline") ["docs"] [srcEntry] srcEntry = 2 :=
  c1_concurrent_double_fetch 1000 (some [⟨"a.ts", "src/a.ts", false, 10, 999, none⟩])
    (.error "offline") ["docs"] [srcEntry] srcEntry rfl rfl rfl

/-! ## C2 -/

/-- Counterexample to C2: expanding "src" while the listing request fails
(the client falls back to mock data) leaves "src" in the expanded-path
set and changes the visible tree (the mock entries are grafted as the
node's children), contradicting both halves of the claim. -/
theorem c2_counterexample :
    (toggleDirectory 1000 none (.error "net down") [] [srcEntry] srcEntry).expandedPaths.contains
      "src" = true ∧
    (toggleDirectory 1000 none (.error "net down") [] [srcEntry] srcEntry).tree ≠ [srcEntry] := by
  constructor
  · rfl
  · intro h
    exact absurd (congrArg (List.map FileEntry.expanded) h) (by decide)

/-- C2 amended: when the fetch triggered by expanding a directory fails,
the path is kept in the expanded set (it is added before the fetch and
committed unconditionally afterwards) and the client's mock entries are
grafted as the directory's children. -/
theorem c2_failure_grafts_mock (now : Nat) (legacy : Except String (List FileEntry))
    (expandedPaths : List String) (tree : List FileEntry) (entry : FileEntry)
    (hdir : entry.is_directory = true)
    (hexp : expandedPaths.contains entry.path = false)
    (hch : entry.children = some []) :
    (toggleDirectory now none legacy expandedPaths tree entry).expandedPaths.contains
      entry.path = true ∧
    (toggleDirectory now none legacy expandedPaths tree entry).tree =
      updateTreeWithChildren tree entry.path ((getMockFiles now).map convertContainerFile) := by
  rw [toggleDirectory_fetchBranch now none legacy expandedPaths tree entry hdir hexp hch]
  exact ⟨setInsert_contains_self expandedPaths entry.path, rfl⟩

theorem c2_failure_grafts_mock_witness :
    (toggleDirectory 1000 none (.error "net down") [] [srcEntry] srcEntry).expandedPaths.contains
      "src" = true ∧
    (toggleDirectory 1000 none (.error "net down") [] [srcEntry] srcEntry).tree =
      updateTreeWithChildren [srcEntry] "src" ((getMockFiles 1000).map convertContainerFile) :=
  c2_failure_grafts_mock 1000 (.error "net down") [] [srcEntry] srcEntry rfl rfl rfl

/-! ## C3 -/

/-- Counterexample to C3: a tree produced by the initial root load alone
— no directory was ever expanded, no graft ever ran — already carries a
present (empty) children field on its directory node, where the claim
demands an absent one. -/
theorem c3_counterexample :
    ((loadFileTreeModel 1000 (some [⟨"src", "src", true, 0, 999, none⟩])
        (.error "offline") [] none).tree).map FileEntry.children = [some []] ∧
    some ([] : List FileEntry) ≠ none :=
  ⟨rfl, by simp⟩

/-- C3 amended: the children field is present exactly on directories —
attached as an empty list the moment a directory node is created (root
load, legacy load and graft all normalise children this way, so grafted
children are themselves lazy) and absent exactly on files; every tree the
loader produces satisfies this invariant. -/
theorem c3_children_iff_directory :
    (∀ f : ContainerFile, (convertContainerFile f).children =
       (if f.is_directory then some [] else none)) ∧
    (∀ (now : Nat) (http : Option (List ContainerFile))
       (legacy : Except String (List FileEntry)) (tree : List FileEntry)
       (path : Option String), listLazyInv tree = true →
       listLazyInv (loadFileTreeModel now http legacy tree path).tree = true) := by
  constructor
  · intro f; rfl
  · intro now http legacy tree path h
    cases http with
    | some files =>
      cases path with
      | none =>
        simpa [loadFileTreeModel, listProjectFilesModel] using
          listLazyInv_map_convert files
      | some p =>
        simpa [loadFileTreeModel, listProjectFilesModel] using
          listLazyInv_update tree p (files.map convertContainerFile) h
    | none =>
      cases path with
      | none =>
        simpa [loadFileTreeModel, listProjectFilesModel] using
          listLazyInv_map_convert (getMockFiles now)
      | some p =>
        simpa [loadFileTreeModel, listProjectFilesModel] using
          listLazyInv_update tree p ((getMockFiles now).map convertContainerFile) h

theorem c3_children_iff_directory_witness :
    (convertContainerFile ⟨"f.ts", "f.ts", false, 7, 999, some "ts"⟩).children =
      (if (false : Bool) then some [] else none) ∧
    listLazyInv (loadFileTreeModel 1000 none (.error "offline") [srcEntry]
      (some "src")).tree = true :=
  ⟨c3_children_iff_directory.1 ⟨"f.ts", "f.ts", false, 7, 999, some "ts"⟩,
   c3_children_iff_directory.2 1000 none (.error "offline") [srcEntry] (some "src") rfl⟩

/-! ## C8 -/

/-- Counterexample to C8: with the listing HTTP request failing and the
legacy endpoint also down, the root load neither calls the legacy
endpoint nor surfaces an error nor leaves the tree empty — the client
resolves with its three mock entries instead. -/
theorem c8_counterexample :
    (loadFileTreeModel 1000 none (.error "legacy down") [] none).legacyCalled = false ∧
    (loadFileTreeModel 1000 none (.error "legacy down") [] none).errorSurfaced = false ∧
    (loadFileTreeModel 1000 none (.error "legacy down") [] none).tree.length = 3 ∧
    (3 : Nat) ≠ 0 :=
  ⟨rfl, rfl, rfl, by omega⟩

/-- C8 amended: the remote workspace client swallows its own HTTP
failures and resolves with static mock data, so the loader's legacy
fallback branch is never reached and no error is ever surfaced to the
caller; on a failed root fetch the tree is populated with the converted
mock entries (in particular it is not left empty).  The Persistent
Project Store is never consulted: the result is a function of the remote
client outcome (and the dead legacy branch) alone. -/
theorem c8_mock_fallback (now : Nat) (http : Option (List ContainerFile))
    (legacy : Except String (List FileEntry)) (tree : List FileEntry)
    (path : Option String) :
    (loadFileTreeModel now http legacy tree path).legacyCalled = false ∧
    (loadFileTreeModel now http legacy tree path).errorSurfaced = false ∧
    (http = none → path = none →
      (loadFileTreeModel now http legacy tree path).tree =
        (getMockFiles now).map convertContainerFile ∧
      (loadFileTreeModel now http legacy tree path).tree ≠ []) := by
  refine ⟨?_, ?_, ?_⟩
  · cases http <;> rfl
  · cases http <;> rfl
  · intro h1 h2
    subst h1; subst h2
    refine ⟨rfl, ?_⟩
    simp [loadFileTreeModel, listProjectFilesModel, getMockFiles]

theorem c8_mock_fallback_witness :
    (loadFileTreeModel 1000 none (.error "legacy down") [] none).legacyCalled = false ∧
    (loadFileTreeModel 1000 none (.error "legacy down") [] none).tree =
      (getMockFiles 1000).map convertContainerFile :=
  ⟨(c8_mock_fallback 1000 none (.error "legacy down") [] none).1,
   ((c8_mock_fallback 1000 none (.error "legacy down") [] none).2.2 rfl rfl).1⟩

/-! ## C4 -/

/-- C4: grafting children at a target path not present anywhere in the
tree is a no-op — the operation is total (never throws) and returns a
tree structurally equal to the input. -/
theorem c4_graft_missing_noop (tree : List FileEntry) (targetPath : String)
    (children : List FileEntry) (h : targetPath ∉ listPaths tree) :
    updateTreeWithChildren tree targetPath children = tree :=
  updateTree_noop tree targetPath children h

theorem c4_graft_missing_noop_witness :
    "zzz" ∉ listPaths [srcExpandedEntry] ∧
    updateTreeWithChildren [srcExpandedEntry] "zzz" [childA] = [srcExpandedEntry] :=
  ⟨by decide, c4_graft_missing_noop [srcExpandedEntry] "zzz" [childA] (by decide)⟩

/-! ## C5 -/

/-- C5: once a directory's fetched children are cached as a non-empty
list, collapsing and re-expanding it touches neither the tree (the
children stay cached, byte for byte) nor the listing client (both
toggles report no fetch); the path ends up expanded again. -/
theorem c5_collapse_reexpand (now : Nat) (http : Option (List ContainerFile))
    (legacy : Except String (List FileEntry)) (expandedPaths : List String)
    (tree : List FileEntry) (entry : FileEntry) (cs : List FileEntry)
    (hdir : entry.is_directory = true)
    (hch : entry.children = some cs)
    (hne : cs ≠ [])
    (hexp : expandedPaths.contains entry.path = true) :
    toggleDirectory now http legacy expandedPaths tree entry =
      ⟨setRemove expandedPaths entry.path, tree, false⟩ ∧
    toggleDirectory now http legacy (setRemove expandedPaths entry.path) tree entry =
      ⟨setInsert (setRemove expandedPaths entry.path) entry.path, tree, false⟩ ∧
    (setInsert (setRemove expandedPaths entry.path) entry.path).contains entry.path = true := by
  obtain ⟨c0, crest, rfl⟩ := List.exists_cons_of_ne_nil hne
  exact ⟨toggleDirectory_collapseBranch now http legacy expandedPaths tree entry hdir hexp,
         toggleDirectory_cachedBranch now http legacy (setRemove expandedPaths entry.path)
           tree entry c0 crest hdir (setRemove_contains_eq_false expandedPaths entry.path) hch,
         setInsert_contains_self _ _⟩

theorem c5_collapse_reexpand_witness :
    toggleDirectory 7 none (.error "offline") ["src"] [srcExpandedEntry] srcExpandedEntry =
      ⟨setRemove ["src"] "src", [srcExpandedEntry], false⟩ ∧
    toggleDirectory 7 none (.error "offline") (setRemove ["src"] "src")
        [srcExpandedEntry] srcExpandedEntry =
      ⟨setInsert (setRemove ["src"] "src") "src", [srcExpandedEntry], false⟩ ∧
    (setInsert (setRemove ["src"] "src") "src").contains "src" = true :=
  c5_collapse_reexpand 7 none (.error "offline") ["src"] [srcExpandedEntry]
    srcExpandedEntry [childA, childB] rfl rfl (by simp) rfl

/-! ## C6 -/

theorem containsSeq_nil (l : List Char) : containsSeq [] l = true := by
  cases l <;> rfl

theorem strIncludes_empty_pat (s : String) : strIncludes s "" = true := by
  unfold strIncludes
  rw [show ("" : String).toList = [] from rfl]
  exact containsSeq_nil s.toList

theorem cohEntry_path (par : FileEntry) (n p : String) (d : Bool)
    (s m : Nat) (c : Option (List FileEntry)) (ex : Bool)
    (h : cohEntry (some par) (.mk n p d s m c ex) = true) :
    p = par.path ++ "/" ++ n := by
  rw [cohEntry.eq_def] at h
  rw [Bool.and_eq_true] at h
  have h1 := h.1
  simpa using h1

theorem cohEntry_children (parent : Option FileEntry) (n p : String) (d : Bool)
    (s m : Nat) (cs : List FileEntry) (ex : Bool)
    (h : cohEntry parent (.mk n p d s m (some cs) ex) = true) :
    cohList (some (.mk n p d s m (some cs) ex)) cs = true := by
  rw [cohEntry.eq_def] at h
  rw [Bool.and_eq_true] at h
  exact h.2

theorem rewriteItem_of_coh (parent : Option FileEntry) (e : FileEntry)
    (h : cohEntry parent e = true) : rewriteItem parent e = e := by
  rcases e with ⟨n, p, d, s, m, c, ex⟩
  cases parent with
  | none => rfl
  | some par =>
    have h1 := cohEntry_path par n p d s m c ex h
    simp only [rewriteItem]
    rw [← h1]

mutual

theorem searchEntry_eq : ∀ (q : String) (parent : Option FileEntry) (e : FileEntry),
    cohEntry parent e = true →
    searchEntry q parent e =
      (preorderEntry e).filter (fun x => strIncludes (strToLower x.name) q)
  | q, parent, .mk n p d s m (some cs) ex, h => by
    have hcoh : cohList (some (.mk n p d s m (some cs) ex)) cs = true :=
      cohEntry_children parent n p d s m cs ex h
    have hrw := rewriteItem_of_coh parent (.mk n p d s m (some cs) ex) h
    have hrec := searchList_eq q (some (.mk n p d s m (some cs) ex)) cs hcoh
    simp only [searchEntry, preorderEntry, List.filter_cons]
    rw [hrw, hrec]
    cases hq : strIncludes (strToLower n) q <;> simp [FileEntry.name, hq]
  | q, parent, .mk n p d s m none ex, h => by
    have hrw := rewriteItem_of_coh parent (.mk n p d s m none ex) h
    simp only [searchEntry, preorderEntry, List.filter_cons]
    rw [hrw]
    cases hq : strIncludes (strToLower n) q <;> simp [FileEntry.name, hq]

theorem searchList_eq : ∀ (q : String) (parent : Option FileEntry) (l : List FileEntry),
    cohList parent l = true →
    searchList q parent l =
      (preorderList l).filter (fun x => strIncludes (strToLower x.name) q)
  | _, _, [], _ => rfl
  | q, parent, a :: as, h => by
    rw [cohList.eq_def] at h
    rw [Bool.and_eq_true] at h
    simp only [searchList, preorderList, List.filter_append]
    rw [searchEntry_eq q parent a h.1, searchList_eq q parent as h.2]

end

/-- C6: on a path-coherent materialised tree (every child's path is its
parent's path joined with its own name — the shape the workspace server
produces, under which the display-path rewrite is the identity) the
search result for a query is exactly the depth-first pre-order traversal
of the materialised nodes filtered by case-insensitive name containment;
the always-true predicate (empty pattern) flattens to every materialised
node; a query that is empty after trimming shows the full tree view, a
non-empty one shows exactly this filtered list.  filterFiles is a pure
function of the tree and query: it performs no fetch. -/
theorem c6_search_is_preorder_filter (files : List FileEntry) (q : String)
    (hcoh : cohList none files = true) :
    filterFiles files (strToLower q) =
      (preorderList files).filter
        (fun x => strIncludes (strToLower x.name) (strToLower q)) ∧
    filterFiles files "" = preorderList files ∧
    explorerView files "" = .treeView files ∧
    (strTrim q ≠ "" →
      explorerView files q = .searchResults (filterFiles files (strToLower q))) := by
  refine ⟨searchList_eq (strToLower q) none files hcoh, ?_, ?_, ?_⟩
  · rw [filterFiles, searchList_eq "" none files hcoh]
    apply List.filter_eq_self.mpr
    intro a _
    exact strIncludes_empty_pat _
  · unfold explorerView
    rw [if_pos (by decide)]
  · intro hq
    unfold explorerView
    rw [if_neg hq]

theorem c6_search_is_preorder_filter_witness :
    cohList none [srcExpandedEntry] = true ∧
    filterFiles [srcExpandedEntry] (strToLower "A") =
      (preorderList [srcExpandedEntry]).filter
        (fun x => strIncludes (strToLower x.name) (strToLower "A")) ∧
    filterFiles [srcExpandedEntry] "" = preorderList [srcExpandedEntry] :=
  ⟨rfl,
   (c6_search_is_preorder_filter [srcExpandedEntry] "A" rfl).1,
   (c6_search_is_preorder_filter [srcExpandedEntry] "A" rfl).2.1⟩

/-! ## C7 -/

/-- C7: updating a project file at an existing path overwrites that
record in place (the first record with that path gets the new content and
a size recomputed from it) and leaves the file count unchanged, while
updating at an absent path appends exactly one new record at the end;
consequently a second update at the same path leaves the count of the
once-updated list unchanged. -/
theorem c7_update_replace_or_append (files : List WebProjectFile) (p c c2 : String) :
    (p ∈ files.map WebProjectFile.path →
      (updateProjectFiles files p c).length = files.length) ∧
    (p ∉ files.map WebProjectFile.path →
      updateProjectFiles files p c = files ++ [⟨p, c, .text, c.utf8ByteSize⟩]) ∧
    ((updateProjectFiles files p c).find? (fun f => f.path = p)).map
      (fun f => (f.content, f.size)) = some (c, c.utf8ByteSize) ∧
    (updateProjectFiles (updateProjectFiles files p c) p c2).length =
      (updateProjectFiles files p c).length :=
  ⟨updateProjectFiles_length_of_mem files p c,
   updateProjectFiles_of_not_mem files p c,
   updateProjectFiles_find files p c,
   updateProjectFiles_length_of_mem _ p c2 (updateProjectFiles_mem_path files p c)⟩

theorem c7_update_replace_or_append_witness :
    (updateProjectFiles filesFixture "a.txt" "new!").length = filesFixture.length ∧
    updateProjectFiles filesFixture "b.md" "hi" =
      filesFixture ++ [⟨"b.md", "hi", .text, ("hi" : String).utf8ByteSize⟩] ∧
    (updateProjectFiles (updateProjectFiles filesFixture "a.txt" "new!") "a.txt" "x").length =
      (updateProjectFiles filesFixture "a.txt" "new!").length :=
  ⟨(c7_update_replace_or_append filesFixture "a.txt" "new!" "x").1 (by decide),
   (c7_update_replace_or_append filesFixture "b.md" "hi" "x").2.1 (by decide),
   (c7_update_replace_or_append filesFixture "a.txt" "new!" "x").2.2.2⟩

/-! ## C9 -/

/-- Counterexample to C9: a listed file whose size on disk is 42 bytes is
reported with size 0 by the server's directory listing. -/
theorem c9_counterexample :
    (listDirectory "/workspace/p" 5 [⟨"a.txt", false, 42⟩]).map
      (fun e => (e.is_directory, e.size)) = [(false, 0)] ∧ (0 : Nat) ≠ 42 := by
  constructor
  · rfl
  · omega

/-- C9 amended: the size field of every entry returned by the server's
directory listing is 0, for files and directories alike (the server never
stats the entries). -/
theorem c9_size_always_zero (dirPath : String) (now : Nat) (entries : List FsDirent)
    (e : ServerEntry) (h : e ∈ listDirectory dirPath now entries) : e.size = 0 := by
  simp only [listDirectory, List.mem_map] at h
  obtain ⟨d, _, rfl⟩ := h
  rfl

theorem c9_size_always_zero_witness :
    (⟨"a.txt", "/workspace/p/a.txt", false, 0, 5⟩ : ServerEntry) ∈
      listDirectory "/workspace/p" 5 [⟨"a.txt", false, 42⟩] ∧
    (⟨"a.txt", "/workspace/p/a.txt", false, 0, 5⟩ : ServerEntry).size = 0 :=
  ⟨by decide,
   c9_size_always_zero "/workspace/p" 5 [⟨"a.txt", false, 42⟩] _ (by decide)⟩

/-! ## C10 -/

/-- C10: every remote-workspace-client operation resolves even when the
underlying HTTP request fails; in particular writeFile resolves exactly
as on success while the server store is untouched, and readFile resolves
with the synthetic placeholder content, so the promise outcome cannot
distinguish a failed write or read from a successful one. -/
theorem c10_client_resolves_on_failure :
    (∀ (server : List (String × String)) (p c : String),
       (writeFileModel false server p c).1 = Except.ok () ∧
       (writeFileModel false server p c).2 = server ∧
       (writeFileModel false server p c).1 = (writeFileModel true server p c).1) ∧
    (∀ (e p : String), readFileModel (.error e) p = .ok (mockFileContent p)) ∧
    (∀ (http : Except String String) (p : String),
       isFulfilled (readFileModel http p) = true) ∧
    (∀ (now : Nat) (http : Option (List ContainerFile)),
       isFulfilled (listProjectFilesModel now http) = true) ∧
    (∀ (http : Except String Unit), isFulfilled (deleteFileModel http) = true) ∧
    (∀ (http : Except String String) (cmd : String),
       isFulfilled (executeCommandModel http cmd) = true) ∧
    (∀ (now : Nat) (http : Option (List ContainerProject)),
       isFulfilled (listWorkspaceProjectsModel now http) = true) ∧
    (∀ (now : Nat) (http : Option ContainerProject) (name : String),
       isFulfilled (createProjectModel now http name) = true) ∧
    (∀ (now : Nat) (http : Option ContainerProject) (projectId : String),
       isFulfilled (getProjectModel now http projectId) = true) := by
  refine ⟨fun server p c => ⟨rfl, rfl, rfl⟩, fun e p => rfl, ?_, ?_, ?_, ?_, ?_, ?_, ?_⟩
  · intro http p; cases http <;> rfl
  · intro now http; cases http <;> rfl
  · intro http; cases http <;> rfl
  · intro http cmd; cases http <;> rfl
  · intro now http; cases http <;> rfl
  · intro now http name; cases http <;> rfl
  · intro now http projectId; cases http <;> rfl

end ClaudiaWeb
